import Mathlib

/-!
# SmokeGuard — verification of the notification-service layer

Shallow embedding of `src/notification_service.py` (class `FlareGuardBot`):
the delivery engine (`send_alert`), the recipient-discovery loop
(`_update_chat_ids`), the encrypted registry round trip
(`_save_chat_ids` / `_load_chat_ids`), the cursor store
(`_get_last_update_id` / `_save_last_update_id`) and crypto
initialization (`_init_crypto`).

Modelling conventions:
* Recipient identifiers (Telegram chat ids) are `Int`.
* Network effects are modelled by an outcome oracle
  `Int → Nat → SendResult` giving, for each chat id and attempt index,
  the result the Telegram API call would produce on that attempt.
* The Fernet cipher and JSON (de)serialization are external libraries;
  a successful `encrypt`/`decrypt` and `dumps`/`loads` round trip is
  modelled as the identity on the decoded content, and decryption or
  parse failure is an explicit `corrupt` constructor of the stored-blob
  type.
* File-system state (the two encrypted files) is passed explicitly.
-/

namespace SmokeGuard

/-- The classification of one Telegram send attempt, mirroring the
`except` clauses of `FlareGuardBot.send_alert`
(`telegram.error.Unauthorized`, `telegram.error.TimedOut`,
`telegram.error.NetworkError`, any other `Exception`) plus success. -/
inductive SendResult where
  | ok
  | unauthorized
  | timedOut
  | networkError
  | otherError
deriving DecidableEq, Repr

/-- The net effect of the inner `for attempt in range(3)` loop of
`send_alert` for a single chat: whether `sent` ended up `True`, how many
times the loop body itself appended the chat to `failed_chats`
(lines 369 and 383 of the source), and how many attempts were entered. -/
structure ChatOutcome where
  sent : Bool
  innerAppends : Nat
  attemptsMade : Nat
deriving DecidableEq, Repr

/-- The inner retry loop of `send_alert`, processing the given list of
attempt indices in order (the source iterates `attempt in range(3)`):
* success sets `sent = True` and breaks;
* `Unauthorized` appends the chat to `failed_chats` and breaks;
* `TimedOut` sleeps `2 ** attempt` and retries;
* `NetworkError` sleeps 5 and retries;
* any other exception appends to `failed_chats` only when
  `attempt == 2`, then breaks. -/
def attemptsOver (oc : Nat → SendResult) : List Nat → ChatOutcome
  | [] => ⟨false, 0, 0⟩
  | a :: rest =>
    match oc a with
    | .ok => ⟨true, 0, 1⟩
    | .unauthorized => ⟨false, 1, 1⟩
    | .timedOut =>
      let r := attemptsOver oc rest
      ⟨r.sent, r.innerAppends, r.attemptsMade + 1⟩
    | .networkError =>
      let r := attemptsOver oc rest
      ⟨r.sent, r.innerAppends, r.attemptsMade + 1⟩
    | .otherError =>
      if a == 2 then ⟨false, 1, 1⟩ else ⟨false, 0, 1⟩

/-- `for attempt in range(3)` in `send_alert`. -/
def chatAttempt (oc : Nat → SendResult) : ChatOutcome :=
  attemptsOver oc [0, 1, 2]

/-- The entries a single chat contributes to `failed_chats`: the appends
made inside the attempt loop, plus the unconditional
`if not sent: failed_chats.append(chat_id)` after it (line 386). -/
def chatFailList (oc : Nat → SendResult) (c : Int) : List Int :=
  let r := chatAttempt oc
  List.replicate r.innerAppends c ++ (if r.sent then [] else [c])

/-- The outer `for chat_id in self.chat_ids` loop of `send_alert`,
returning the final `overall_success` flag and the accumulated
`failed_chats` list (in source order). -/
def sendLoop (oc : Int → Nat → SendResult) : List Int → Bool × List Int
  | [] => (false, [])
  | c :: rest =>
    let here := chatAttempt (oc c)
    let r := sendLoop oc rest
    (here.sent || r.1, chatFailList (oc c) c ++ r.2)

/-- Result of one `send_alert` call: the returned boolean, the
in-memory `self.chat_ids` afterwards, whether `_save_chat_ids` was
invoked (i.e. whether the persisted registry was rewritten), and the
total number of send attempts made across all recipients. -/
structure AlertResult where
  success : Bool
  chatIds : List Int
  savedRegistry : Bool
  attemptsTotal : Nat
deriving DecidableEq, Repr

/-- `FlareGuardBot.send_alert` (lines 332–400): if the alert image is
missing, return `False` immediately; otherwise run the per-chat retry
loop, then — when `failed_chats` is nonempty — filter every failed chat
out of `self.chat_ids` and persist via `_save_chat_ids`. -/
def send_alert (imageExists : Bool) (oc : Int → Nat → SendResult)
    (chatIds : List Int) : AlertResult :=
  if imageExists then
    if (sendLoop oc chatIds).2.isEmpty then
      ⟨(sendLoop oc chatIds).1, chatIds, false,
        (chatIds.map (fun c => (chatAttempt (oc c)).attemptsMade)).sum⟩
    else
      ⟨(sendLoop oc chatIds).1,
        chatIds.filter (fun i => !(sendLoop oc chatIds).2.contains i), true,
        (chatIds.map (fun c => (chatAttempt (oc c)).attemptsMade)).sum⟩
  else
    ⟨false, chatIds, false, 0⟩

/-- If a chat was marked sent, the attempt loop never appended it to
`failed_chats` from inside the loop body. -/
theorem sent_innerAppends_zero (oc : Nat → SendResult) :
    ∀ l : List Nat, (attemptsOver oc l).sent = true →
      (attemptsOver oc l).innerAppends = 0 := by
  intro l
  induction l with
  | nil => simp [attemptsOver]
  | cons a rest ih =>
    simp only [attemptsOver]
    cases h : oc a <;> simp_all
    · split <;> simp_all

/-- Membership in a single chat's contribution to `failed_chats`:
exactly that chat, and only when the send did not go through. -/
theorem mem_chatFailList (oc : Nat → SendResult) (c x : Int) :
    x ∈ chatFailList oc c ↔ x = c ∧ (chatAttempt oc).sent = false := by
  unfold chatFailList
  cases h : (chatAttempt oc).sent with
  | true =>
    have hz : (chatAttempt oc).innerAppends = 0 :=
      sent_innerAppends_zero oc [0, 1, 2] h
    simp [h, hz]
  | false =>
    constructor
    · intro hx
      rcases List.mem_append.mp hx with hx | hx
      · exact ⟨List.eq_of_mem_replicate hx, rfl⟩
      · rw [h] at hx
        simp at hx
        exact ⟨hx, rfl⟩
    · intro ⟨hx, _⟩
      subst hx
      refine List.mem_append.mpr (Or.inr ?_)
      rw [h]
      simp

/-- The outer loop's success flag is the disjunction of per-chat
success, and its `failed_chats` accumulates every unsent chat. -/
theorem sendLoop_success (oc : Int → Nat → SendResult) (ids : List Int) :
    (sendLoop oc ids).1 = ids.any (fun c => (chatAttempt (oc c)).sent) := by
  induction ids with
  | nil => rfl
  | cons c rest ih => simp [sendLoop, ih]

/-- Membership in the final `failed_chats` list. -/
theorem mem_sendLoop_failed (oc : Int → Nat → SendResult) (ids : List Int)
    (x : Int) :
    x ∈ (sendLoop oc ids).2 ↔
      x ∈ ids ∧ (chatAttempt (oc x)).sent = false := by
  induction ids with
  | nil => simp [sendLoop]
  | cons c rest ih =>
    simp only [sendLoop, List.mem_append, mem_chatFailList, ih,
      List.mem_cons]
    constructor
    · rintro (⟨rfl, hs⟩ | ⟨hm, hs⟩)
      · exact ⟨Or.inl rfl, hs⟩
      · exact ⟨Or.inr hm, hs⟩
    · rintro ⟨rfl | hm, hs⟩
      · exact Or.inl ⟨rfl, hs⟩
      · exact Or.inr ⟨hm, hs⟩

/-- After a `send_alert` with the image present, the surviving
`chat_ids` are exactly the chats whose send went through — whether or
not the prune-and-save branch fired. -/
theorem send_alert_chatIds_eq_filter (oc : Int → Nat → SendResult)
    (ids : List Int) :
    (send_alert true oc ids).chatIds =
      ids.filter (fun c => (chatAttempt (oc c)).sent) := by
  unfold send_alert
  rw [if_pos rfl]
  by_cases h : (sendLoop oc ids).2.isEmpty = true
  · rw [if_pos h]
    have hnil : (sendLoop oc ids).2 = [] := by simpa using h
    have hall : ∀ c ∈ ids, (chatAttempt (oc c)).sent = true := by
      intro c hc
      cases hs : (chatAttempt (oc c)).sent with
      | true => rfl
      | false =>
        have hmem : c ∈ (sendLoop oc ids).2 :=
          (mem_sendLoop_failed oc ids c).mpr ⟨hc, hs⟩
        rw [hnil] at hmem
        exact absurd hmem (List.not_mem_nil c)
    exact (List.filter_eq_self.mpr hall).symm
  · rw [if_neg h]
    apply List.filter_congr
    intro c hc
    cases hs : (chatAttempt (oc c)).sent with
    | true =>
      have hns : c ∉ (sendLoop oc ids).2 := by
        intro hmem
        have := (mem_sendLoop_failed oc ids c).mp hmem
        simp [hs] at this
      simp [List.contains, hns]
    | false =>
      have hmem : c ∈ (sendLoop oc ids).2 :=
        (mem_sendLoop_failed oc ids c).mpr ⟨hc, hs⟩
      simp [List.contains, hmem]

/-- `send_alert` returns the loop's `overall_success` flag whether or
not any chats were pruned. -/
theorem send_alert_success_eq (oc : Int → Nat → SendResult)
    (ids : List Int) :
    (send_alert true oc ids).success = (sendLoop oc ids).1 := by
  unfold send_alert
  rw [if_pos rfl]
  by_cases h : (sendLoop oc ids).2.isEmpty = true
  · rw [if_pos h]
  · rw [if_neg h]

/-- A chat none of whose attempts succeeds is never marked sent. -/
theorem attemptsOver_sent_false_of_never_ok (oc : Nat → SendResult)
    (hnone : ∀ a, ¬ oc a = SendResult.ok) :
    ∀ l : List Nat, (attemptsOver oc l).sent = false := by
  intro l
  induction l with
  | nil => rfl
  | cons a rest ih =>
    simp only [attemptsOver]
    cases h : oc a with
    | ok => exact absurd h (hnone a)
    | unauthorized => rfl
    | timedOut => simpa using ih
    | networkError => simpa using ih
    | otherError => by_cases h2 : (a == 2) = true <;> simp [h2]

/-- Evaluation of the attempt loop when the first attempt succeeds. -/
theorem chatAttempt_ok_first (oc : Nat → SendResult) (h : oc 0 = .ok) :
    chatAttempt oc = ⟨true, 0, 1⟩ := by
  simp [chatAttempt, attemptsOver, h]

/-- Evaluation of the attempt loop when the first attempt hits
`Unauthorized`: one attempt, no send, marked failed. -/
theorem chatAttempt_unauthorized_first (oc : Nat → SendResult)
    (h : oc 0 = .unauthorized) : chatAttempt oc = ⟨false, 1, 1⟩ := by
  simp [chatAttempt, attemptsOver, h]

/-- The concrete outcome oracle of the spec's timeout scenario:
recipient 100 times out on every attempt, every other recipient
succeeds on its first attempt. -/
def ocTimeout100 : Int → Nat → SendResult :=
  fun c _ => if c = 100 then .timedOut else .ok

/-- C1 counterexample: with registry `[100, 200]`, recipient 100 timing
out on all 3 attempts and recipient 200 succeeding at once, the claim
"overall success = true and the registry after delivery is still
{100, 200}" is false on the code: line 386 appends every unsent chat —
timeout-exhausted ones included — to `failed_chats`, and the cleanup
block prunes them. -/
theorem timeout_retention_claim_false :
    ¬ ((send_alert true ocTimeout100 [100, 200]).success = true ∧
       (send_alert true ocTimeout100 [100, 200]).chatIds.toFinset =
         ({100, 200} : Finset Int)) := by
  decide

/-- C1 amended: in that scenario the call still returns overall
success = true, but the registry after delivery is `[200]` — the
recipient whose three attempts all timed out is pruned together with
terminal failures, and the pruned registry is persisted. -/
theorem timeout_exhausted_recipient_pruned :
    (send_alert true ocTimeout100 [100, 200]).success = true ∧
    (send_alert true ocTimeout100 [100, 200]).chatIds = [200] ∧
    (send_alert true ocTimeout100 [100, 200]).savedRegistry = true := by
  decide

/-- C5: a recipient that is `Unauthorized` on its first attempt gets no
retry (exactly one attempt is made), and — when every other recipient
succeeds — the registry after the call is the previous set minus that
recipient. -/
theorem unauthorized_immediate_prune
    (ids : List Int) (oc : Int → Nat → SendResult) (c : Int)
    (hmem : c ∈ ids) (hc : oc c 0 = .unauthorized)
    (hothers : ∀ c' ∈ ids, c' ≠ c → oc c' 0 = .ok) :
    (chatAttempt (oc c)).attemptsMade = 1 ∧
    (send_alert true oc ids).chatIds.toFinset = ids.toFinset.erase c := by
  refine ⟨by rw [chatAttempt_unauthorized_first (oc c) hc], ?_⟩
  rw [send_alert_chatIds_eq_filter]
  ext x
  simp only [List.mem_toFinset, List.mem_filter, Finset.mem_erase]
  constructor
  · rintro ⟨hx, hsent⟩
    refine ⟨?_, hx⟩
    rintro rfl
    rw [chatAttempt_unauthorized_first (oc x) hc] at hsent
    simp at hsent
  · rintro ⟨hne, hx⟩
    refine ⟨hx, ?_⟩
    rw [chatAttempt_ok_first (oc x) (hothers x hx hne)]

/-- Witness for C5 at registry `[300, 1]` with recipient 300
unauthorized and recipient 1 succeeding. -/
theorem unauthorized_immediate_prune_witness :
    (chatAttempt ((fun c _ =>
        if c = 300 then SendResult.unauthorized else .ok) 300)).attemptsMade = 1 ∧
    (send_alert true
        (fun c _ => if c = 300 then SendResult.unauthorized else .ok)
        [300, 1]).chatIds.toFinset =
      ([300, 1] : List Int).toFinset.erase 300 :=
  unauthorized_immediate_prune [300, 1]
    (fun c _ => if c = 300 then SendResult.unauthorized else .ok) 300
    (by decide) (by decide) (by decide)

/-- C7: (1) `send_alert` returns `True` iff at least one registered
recipient actually received the payload; (2) when recipient `k` fails
on every attempt, every other recipient succeeds first try, and some
other recipient exists, the call returns overall success and exactly
`k` is pruned from the registry. -/
theorem deliver_success_iff_and_exact_prune :
    (∀ (oc : Int → Nat → SendResult) (ids : List Int),
      ((send_alert true oc ids).success = true ↔
        ∃ c ∈ ids, (chatAttempt (oc c)).sent = true)) ∧
    (∀ (oc : Int → Nat → SendResult) (ids : List Int) (k : Int),
      k ∈ ids → (∀ a, ¬ oc k a = .ok) →
      (∀ c ∈ ids, c ≠ k → oc c 0 = .ok) → (∃ j ∈ ids, j ≠ k) →
      (send_alert true oc ids).success = true ∧
      (send_alert true oc ids).chatIds.toFinset = ids.toFinset.erase k) := by
  have hiff : ∀ (oc : Int → Nat → SendResult) (ids : List Int),
      ((send_alert true oc ids).success = true ↔
        ∃ c ∈ ids, (chatAttempt (oc c)).sent = true) := by
    intro oc ids
    rw [send_alert_success_eq, sendLoop_success, List.any_eq_true]
  refine ⟨hiff, ?_⟩
  intro oc ids k hk hfail hothers ⟨j, hj, hjk⟩
  have hksent : (chatAttempt (oc k)).sent = false :=
    attemptsOver_sent_false_of_never_ok (oc k) hfail [0, 1, 2]
  constructor
  · exact (hiff oc ids).mpr
      ⟨j, hj, by rw [chatAttempt_ok_first (oc j) (hothers j hj hjk)]⟩
  · rw [send_alert_chatIds_eq_filter]
    ext x
    simp only [List.mem_toFinset, List.mem_filter, Finset.mem_erase]
    constructor
    · rintro ⟨hx, hsent⟩
      refine ⟨?_, hx⟩
      rintro rfl
      rw [hksent] at hsent
      simp at hsent
    · rintro ⟨hne, hx⟩
      exact ⟨hx, by rw [chatAttempt_ok_first (oc x) (hothers x hx hne)]⟩

/-- Witness for C7 at registry `[7, 8]` where recipient 7 fails with an
unclassified error on every attempt and recipient 8 succeeds. -/
theorem deliver_success_iff_and_exact_prune_witness :
    (send_alert true
        (fun c _ => if c = 7 then SendResult.otherError else .ok)
        [7, 8]).success = true ∧
    (send_alert true
        (fun c _ => if c = 7 then SendResult.otherError else .ok)
        [7, 8]).chatIds.toFinset = ([7, 8] : List Int).toFinset.erase 7 :=
  deliver_success_iff_and_exact_prune.2
    (fun c _ => if c = 7 then SendResult.otherError else .ok)
    [7, 8] 7 (by decide) (by intro a; simp) (by decide)
    ⟨8, by decide, by decide⟩

/-- C9: with the alert image missing, `send_alert` returns `False`
immediately, makes zero send attempts, leaves the in-memory registry
untouched and never calls `_save_chat_ids`. -/
theorem send_alert_missing_image (oc : Int → Nat → SendResult)
    (ids : List Int) :
    send_alert false oc ids = ⟨false, ids, false, 0⟩ := rfl

/-- C10: whatever the image state, the outcome oracle and the starting
registry, every chat id surviving a `send_alert` call was already in
the registry before it — delivery only removes recipients. -/
theorem send_alert_registry_subset (imageExists : Bool)
    (oc : Int → Nat → SendResult) (ids : List Int) (x : Int)
    (hx : x ∈ (send_alert imageExists oc ids).chatIds) : x ∈ ids := by
  cases imageExists with
  | false => simpa [send_alert] using hx
  | true =>
    rw [send_alert_chatIds_eq_filter] at hx
    exact (List.mem_filter.mp hx).1

/-- Witness for C10 at a singleton registry with an all-success
oracle. -/
theorem send_alert_registry_subset_witness :
    (5 : Int) ∈ (send_alert true (fun _ _ => SendResult.ok) [5]).chatIds ∧
    (5 : Int) ∈ ([5] : List Int) :=
  ⟨by decide, send_alert_registry_subset true (fun _ _ => SendResult.ok)
    [5] 5 (by decide)⟩

/-! ## Secure recipient registry: persisted state

`_save_chat_ids` writes `encrypt(json.dumps(list(set(chat_ids))))` and
`_load_chat_ids` reads the file, decrypts, `json.loads` the plaintext,
validates every entry is an `int` and returns `list(set(ids))`.
A Fernet `decrypt(encrypt(x)) = x` round trip and a JSON
`loads(dumps(v)) = v` round trip are modelled as the identity on the
decoded value; a missing file, a failed decryption or an unparseable
plaintext are explicit constructors of the stored-blob type.  Python's
`list(set(·))` is modelled as `List.dedup` (the order a Python `set`
yields is unspecified; every claim about it here is at set level). -/

/-- Decoded JSON values as far as the registry file is concerned:
integers, and non-integer shapes (strings, booleans, nested arrays)
that must make validation fail. -/
inductive Json where
  | int (n : Int)
  | str (s : String)
  | boolean (b : Bool)
  | arr (l : List Json)

/-- `isinstance(i, int)` projection used by the validation loop of
`_load_chat_ids`. -/
def asInt : Json → Option Int
  | .int n => some n
  | _ => none

/-- The `all(isinstance(i, int) for i in ids)` validation of
`_load_chat_ids`, fused with the extraction of the integers: `none`
as soon as any entry is not an integer. -/
def decodeInts : List Json → Option (List Int)
  | [] => some []
  | j :: rest =>
    match asInt j with
    | some n => (decodeInts rest).map (n :: ·)
    | none => none

/-- State of one encrypted storage file as seen through
`decrypt` + `json.loads`. -/
inductive StoredData where
  | absent
  | corrupt
  | payload (j : Json)

/-- `FlareGuardBot._load_chat_ids` (lines 226–242): missing file →
`[]`; decryption or parse failure → logged, `[]`; decoded list with a
non-integer entry → `ValueError`, logged, `[]`; decoded non-list →
iteration fails, logged, `[]`; otherwise `list(set(ids))`. -/
def _load_chat_ids : StoredData → List Int
  | .payload (.arr l) =>
    match decodeInts l with
    | some ids => ids.dedup
    | none => []
  | _ => []

/-- `FlareGuardBot._save_chat_ids` (lines 244–255): encrypt
`json.dumps(list(set(self.chat_ids)))` and overwrite the storage
file. -/
def _save_chat_ids (chatIds : List Int) : StoredData :=
  .payload (.arr ((chatIds.dedup).map Json.int))

/-- State of the encrypted cursor file: `_save_last_update_id` writes
`str(update_id)` encrypted, so the decoded content is a single integer
(`corrupt` covers decryption failure and an unparseable string). -/
inductive StoredCursor where
  | absent
  | corrupt
  | value (n : Int)
deriving DecidableEq, Repr

/-- `FlareGuardBot._get_last_update_id` (lines 257–269): missing file,
decryption failure or `int()` parse failure all fall through to
`return 0`. -/
def _get_last_update_id : StoredCursor → Int
  | .value n => n
  | _ => 0

/-- `FlareGuardBot._save_last_update_id` (lines 271–280). -/
def _save_last_update_id (update_id : Int) : StoredCursor :=
  .value update_id

/-- The structural-validation predicate of `_load_chat_ids`: the file
exists, decrypts, parses to a list, and every entry is an integer. -/
def chatStoreValid : StoredData → Bool
  | .payload (.arr l) => (decodeInts l).isSome
  | _ => false

/-- `FlareGuardBot._init_crypto` (lines 219–224): `os.getenv` returning
`None` (unset) or an empty string is falsy, so `ValueError` is raised;
otherwise the `Fernet` cipher is built from the key. -/
def _init_crypto (encKey : Option String) : Except String Unit :=
  match encKey with
  | none => .error "ENCRYPTION_KEY environment variable required"
  | some k =>
    if k = "" then .error "ENCRYPTION_KEY environment variable required"
    else .ok ()

/-- `FlareGuardBot.__init__` (lines 205–213) as far as fallibility is
concerned: it calls `_init_crypto` (which may raise) and then
`_load_chat_ids` on the current storage file; on success the in-memory
registry is the loaded list. -/
def mkFlareGuardBot (encKey : Option String) (store : StoredData) :
    Except String (List Int) :=
  match _init_crypto encKey with
  | .error e => .error e
  | .ok _ => .ok (_load_chat_ids store)

/-- Mapping a list of ints into JSON and re-validating it succeeds and
returns the same list. -/
theorem decodeInts_map_int (l : List Int) :
    decodeInts (l.map Json.int) = some l := by
  induction l with
  | nil => rfl
  | cons n rest ih => simp [decodeInts, asInt, ih]

/-- C3: for every recipient list `R`, `save` followed by `load` yields
a set equal to the deduplication of `R`: the encrypt/persist/decrypt
round trip preserves the recipient set and collapses duplicates. -/
theorem save_load_round_trip (R : List Int) :
    (_load_chat_ids (_save_chat_ids R)).toFinset = R.toFinset := by
  simp only [_save_chat_ids, _load_chat_ids, decodeInts_map_int]
  ext a
  simp [List.mem_dedup]

/-- C6: every read of persisted registry state that fails decryption or
structural validation — including a decoded list holding a non-integer
entry — falls back to the default instead of raising: the recipient set
loads as `[]` and the cursor loads as `0`; the same defaults apply to a
missing file. -/
theorem corrupt_reads_fall_back_to_default :
    (∀ s : StoredData, chatStoreValid s = false → _load_chat_ids s = []) ∧
    _load_chat_ids .absent = [] ∧
    _load_chat_ids .corrupt = [] ∧
    _load_chat_ids (.payload (.arr [.int 5, .str "oops"])) = [] ∧
    _get_last_update_id .absent = 0 ∧
    _get_last_update_id .corrupt = 0 := by
  refine ⟨?_, rfl, rfl, by decide, rfl, rfl⟩
  intro s hs
  match s with
  | .absent => rfl
  | .corrupt => rfl
  | .payload (.int _) => rfl
  | .payload (.str _) => rfl
  | .payload (.boolean _) => rfl
  | .payload (.arr l) =>
    simp only [chatStoreValid] at hs
    simp only [_load_chat_ids]
    cases h : decodeInts l with
    | some ids => rw [h] at hs; simp at hs
    | none => rfl

/-- Witness for C6 on a blob that decrypts to a list containing a
string entry. -/
theorem corrupt_reads_fall_back_to_default_witness :
    chatStoreValid (.payload (.arr [.str "x"])) = false ∧
    _load_chat_ids (.payload (.arr [.str "x"])) = [] :=
  ⟨by decide,
    corrupt_reads_fall_back_to_default.1 (.payload (.arr [.str "x"]))
      (by decide)⟩

/-- C8: constructing the bot without the `ENCRYPTION_KEY` environment
variable is a fatal configuration error — whatever the storage state,
`__init__` propagates the `ValueError` from `_init_crypto` instead of
continuing with encryption disabled. -/
theorem missing_key_fatal (store : StoredData) :
    _init_crypto none = .error "ENCRYPTION_KEY environment variable required" ∧
    mkFlareGuardBot none store =
      .error "ENCRYPTION_KEY environment variable required" :=
  ⟨rfl, rfl⟩

/-! ## Recipient discovery (`_update_chat_ids`)

The inbound-update source is Telegram's `get_updates(offset=c+1, ...)`:
per its documented semantics (spec §6) it returns, in order, exactly
the updates of the pending batch whose sequence number is at least the
requested offset.  `_save_last_update_id` is called inside the
per-update loop; the model counts those calls to settle the batching
claim. -/

/-- One inbound update: its sequence number (`update_id`) and the
sender's chat id when the update carries a message
(`update.message.chat_id`; `none` also models a falsy chat id, since
the source guards with `if update.message and update.message.chat_id`).
-/
structure Update where
  update_id : Int
  sender : Option Int
deriving DecidableEq, Repr

/-- The poll collaborator `bot.get_updates(offset, timeout)`: the
pending batch filtered to sequence numbers `≥ offset`, order
preserved. -/
def getUpdates (batch : List Update) (offset : Int) : List Update :=
  batch.filter (fun u => offset ≤ u.update_id)

/-- Running state of the `for update in updates` loop of
`_update_chat_ids`: in-memory `self.chat_ids`, accumulated `new_ids`,
the running `offset`, the cursor file, and how many times
`_save_last_update_id` ran. -/
structure DiscoveryState where
  chatIds : List Int
  newIds : List Int
  offset : Int
  cursorStore : StoredCursor
  cursorSaves : Nat

/-- The body of the discovery loop (lines 289–300): register an unseen
sender, then — when `update.update_id >= offset` — advance the running
offset to it and persist it immediately. -/
def processUpdate (s : DiscoveryState) (u : Update) : DiscoveryState :=
  let s1 :=
    match u.sender with
    | some cid =>
      if cid ∈ s.chatIds then s
      else { s with chatIds := s.chatIds ++ [cid],
                    newIds := s.newIds ++ [cid] }
    | none => s
  if s1.offset ≤ u.update_id then
    { s1 with offset := u.update_id,
              cursorStore := _save_last_update_id u.update_id,
              cursorSaves := s1.cursorSaves + 1 }
  else s1

/-- Net effect of one `_update_chat_ids` invocation. -/
structure DiscoveryResult where
  chatIds : List Int
  newIds : List Int
  cursorStore : StoredCursor
  cursorSaves : Nat
  registrySaves : Nat
deriving DecidableEq, Repr

/-- `FlareGuardBot._update_chat_ids` (lines 282–306): read the cursor,
poll with `offset + 1`, run the loop body over the returned updates,
and call `_save_chat_ids` once at the end iff any new id was
registered. -/
def _update_chat_ids (batch : List Update) (chatIds : List Int)
    (cursorStore : StoredCursor) : DiscoveryResult :=
  let offset := _get_last_update_id cursorStore
  let updates := getUpdates batch (offset + 1)
  let final := updates.foldl processUpdate
    ⟨chatIds, [], offset, cursorStore, 0⟩
  { chatIds := final.chatIds
    newIds := final.newIds
    cursorStore := final.cursorStore
    cursorSaves := final.cursorSaves
    registrySaves := if final.newIds.isEmpty then 0 else 1 }

/-- The loop body never lowers the count of cursor writes. -/
theorem processUpdate_cursorSaves_mono (s : DiscoveryState) (u : Update) :
    s.cursorSaves ≤ (processUpdate s u).cursorSaves := by
  unfold processUpdate
  cases u.sender with
  | none => dsimp only; split <;> simp
  | some cid => dsimp only; split <;> split <;> simp

/-- Folding the loop body never lowers the count of cursor writes. -/
theorem foldl_processUpdate_cursorSaves_mono (us : List Update) :
    ∀ s : DiscoveryState,
      s.cursorSaves ≤ (us.foldl processUpdate s).cursorSaves := by
  induction us with
  | nil => intro s; simp
  | cons u rest ih =>
    intro s
    exact le_trans (processUpdate_cursorSaves_mono s u) (ih _)

/-- Registering a sender leaves `offset` and `cursorSaves` alone, so a
first processed update with `update_id` past the running offset always
writes the cursor. -/
theorem processUpdate_cursorSaves_of_le (s : DiscoveryState) (u : Update)
    (h : s.offset ≤ u.update_id) :
    (processUpdate s u).cursorSaves = s.cursorSaves + 1 := by
  unfold processUpdate
  cases u.sender with
  | none => simp [h]
  | some cid =>
    dsimp only
    by_cases hm : cid ∈ s.chatIds <;> simp [hm, h]

/-- C2 counterexample: with cursor 50 and a polled batch holding
updates 51 and 53, `_save_last_update_id` runs twice within the single
invocation (once per qualifying update, inside the loop), so the cursor
is not persisted exactly once after the batch. -/
theorem discovery_cursor_not_saved_once :
    (_update_chat_ids [⟨51, some 777⟩, ⟨53, none⟩] []
      (.value 50)).cursorSaves ≠ 1 := by
  decide

/-- C2 amended: in one discovery invocation the recipient set is
persisted at most once — exactly once iff at least one new recipient
was registered, after the batch — but the cursor is persisted once per
update whose sequence number is at least the running cursor, inside the
loop: at least once whenever the poll returns any update, rather than
exactly once per batch. -/
theorem discovery_write_batching (batch : List Update) (ids : List Int)
    (cur : StoredCursor) :
    (_update_chat_ids batch ids cur).registrySaves ≤ 1 ∧
    ((_update_chat_ids batch ids cur).registrySaves = 1 ↔
      (_update_chat_ids batch ids cur).newIds ≠ []) ∧
    (getUpdates batch (_get_last_update_id cur + 1) ≠ [] →
      1 ≤ (_update_chat_ids batch ids cur).cursorSaves) := by
  refine ⟨?_, ?_, ?_⟩
  · unfold _update_chat_ids
    dsimp only
    split <;> simp
  · unfold _update_chat_ids
    dsimp only
    constructor
    · intro h
      intro hnil
      rw [List.isEmpty_iff.mpr hnil] at h
      simp at h
    · intro h
      rw [if_neg (by simpa [List.isEmpty_iff] using h)]
  · intro hne
    unfold _update_chat_ids
    dsimp only
    cases hu : getUpdates batch (_get_last_update_id cur + 1) with
    | nil => exact absurd hu hne
    | cons u rest =>
      rw [List.foldl_cons]
      have hmem : u ∈ getUpdates batch (_get_last_update_id cur + 1) := by
        rw [hu]; exact List.mem_cons_self u rest
      have hle : _get_last_update_id cur + 1 ≤ u.update_id := by
        have := List.of_mem_filter hmem
        exact of_decide_eq_true this
      have h1 : (processUpdate
          ⟨ids, [], _get_last_update_id cur, cur, 0⟩ u).cursorSaves = 1 :=
        processUpdate_cursorSaves_of_le _ u (by dsimp only; omega)
      calc 1 = (processUpdate
            ⟨ids, [], _get_last_update_id cur, cur, 0⟩ u).cursorSaves :=
          h1.symm
        _ ≤ _ := foldl_processUpdate_cursorSaves_mono rest _

/-- Witness for C2's amended claim on the two-update batch of the
counterexample. -/
theorem discovery_write_batching_witness :
    getUpdates [⟨51, some 777⟩, ⟨53, none⟩]
        (_get_last_update_id (.value 50) + 1) ≠ [] ∧
    1 ≤ (_update_chat_ids [⟨51, some 777⟩, ⟨53, none⟩] []
        (.value 50)).cursorSaves :=
  ⟨by decide,
    (discovery_write_batching [⟨51, some 777⟩, ⟨53, none⟩] []
      (.value 50)).2.2 (by decide)⟩

/-- C4: (1) discovery only ever receives — hence only ever processes —
updates whose sequence number strictly exceeds the persisted cursor;
(2) in the spec's scenario (cursor 50, batch `[48, 51, 53]`, update 51
carrying new sender 777), one invocation persists the cursor as 53 and
registers 777, and a second invocation on the very same batch leaves
the registry with exactly one copy of 777 and the cursor at 53. -/
theorem discovery_never_reprocesses :
    (∀ (batch : List Update) (c : Int) (u : Update),
      u ∈ getUpdates batch (c + 1) → c < u.update_id) ∧
    ((_update_chat_ids [⟨48, some 666⟩, ⟨51, some 777⟩, ⟨53, none⟩] []
        (.value 50)).chatIds = [777] ∧
     (_update_chat_ids [⟨48, some 666⟩, ⟨51, some 777⟩, ⟨53, none⟩] []
        (.value 50)).cursorStore = .value 53 ∧
     (_update_chat_ids [⟨48, some 666⟩, ⟨51, some 777⟩, ⟨53, none⟩] [777]
        (.value 53)).chatIds = [777] ∧
     (_update_chat_ids [⟨48, some 666⟩, ⟨51, some 777⟩, ⟨53, none⟩] [777]
        (.value 53)).cursorStore = .value 53 ∧
     ((_update_chat_ids [⟨48, some 666⟩, ⟨51, some 777⟩, ⟨53, none⟩] [777]
        (.value 53)).chatIds.count 777 = 1)) := by
  constructor
  · intro batch c u hu
    have := List.of_mem_filter hu
    have := of_decide_eq_true this
    omega
  · refine ⟨by decide, by decide, by decide, by decide, by decide⟩

/-- Witness for C4's universally quantified part on a singleton
batch. -/
theorem discovery_never_reprocesses_witness :
    (⟨51, some 777⟩ : Update) ∈ getUpdates [⟨51, some 777⟩] (50 + 1) ∧
    (50 : Int) < (⟨51, some 777⟩ : Update).update_id :=
  ⟨by decide,
    discovery_never_reprocesses.1 [⟨51, some 777⟩] 50 ⟨51, some 777⟩
      (by decide)⟩

end SmokeGuard
